import Mathlib

/-
Verification development for the json.h single-header JSON parser.

The embedding below is a shallow model of the C source, translated
function by function:

  json_h_type          -> JType
  json_h_context       -> Ctx (fields r, s, need_end, object_state)
  union json_h_value   -> CNode (tag, boolean value, string write log,
                          string length cell, child slots, count)
  json_h_destroy       -> json_h_destroy (returns the number of heap
                          blocks the C function frees)
  json_h_free          -> json_h_free
  json_h_parse_string  -> json_h_parse_string
  json_h_next          -> json_h_next (loop body: jhNextLoop)
  json_h_parse_        -> json_h_parse_ (container loop: jhBuild)
  json_h_parse         -> json_h_parse

Bytes are Nat (0..255), buffers are List Nat.  The source buffer length
n is taken to be the list length.  Heap behaviour is modelled by a
ledger: allocs counts the currently outstanding heap blocks (the
root node, each string buffer, each container child buffer); malloc
and realloc are modelled as always succeeding.

The C statement  buf[*n++] = x;  in json_h_parse_string increments the
pointer n (postfix ++ binds tighter than unary *), not the counter *n.
After the first increment the pointer no longer points at the length
cell, so further reads through it yield unspecified values.  This is
modelled explicitly: the parameter junk gives the value read through
the pointer after it has been moved off the cell (offset 0 reads the
real cell).  Every buffer store of the decoder is recorded in a write
log of (index, byte) pairs, in program order, and the length cell is
threaded through unchanged because no statement of the C function ever
stores to it.
-/

inductive JType where
  | jnull
  | jboolean
  | jstring
  | jnumber
  | jobject
  | jarray
  | jobjectStart
  | jobjectEnd
  | jarrayStart
  | jarrayEnd
deriving DecidableEq, Repr

/- One node of the value tree, mirroring union json_h_value.  The
children list models the array.values / object.members heap buffer
exactly as written: during building the child slots are appended in
order, and on close the end marker token occupies the slot just past
the recorded count, as in the C memory.  For an object node the
children are the flat name, value, name, value sequence and cnt is the
member count after the division by two. -/
inductive CNode where
  | mk : JType → Nat → List (Nat × Nat) → Nat → List CNode → Nat → CNode
deriving Repr

def CNode.tag : CNode → JType
  | .mk t _ _ _ _ _ => t

def CNode.boolval : CNode → Nat
  | .mk _ b _ _ _ _ => b

def CNode.strWrites : CNode → List (Nat × Nat)
  | .mk _ _ w _ _ _ => w

def CNode.strlen : CNode → Nat
  | .mk _ _ _ l _ _ => l

def CNode.children : CNode → List CNode
  | .mk _ _ _ _ c _ => c

def CNode.cnt : CNode → Nat
  | .mk _ _ _ _ _ n => n

structure Ctx where
  r : Nat
  s : Nat
  need_end : Nat
  object_state : Nat
deriving DecidableEq, Repr

/- JSON_H_CONTEXT_INIT -/
def ctxInit : Ctx := ⟨0, 0, 0, 2⟩

/- Scanner and builder state: the source buffer (mutated in place by
the delimiter pushes), the context, and the outstanding heap block
count. -/
structure St where
  buf : List Nat
  ctx : Ctx
  allocs : Nat
deriving Repr

/- json_h_destroy, modelled as the number of heap blocks freed.  A
string node frees its byte buffer; an object frees each member name
buffer, destroys each member value and frees the member buffer; an
array destroys each element and frees the element buffer; every other
tag (including the four marker kinds) frees nothing.  jhDestroyElems
walks the first cnt element slots, jhDestroyPairs the first cnt
name and value slot pairs. -/
mutual

def jhDestroyNode : CNode → Nat
  | .mk t _ _ _ ch cnt =>
    if t = .jstring then 1
    else if t = .jobject then jhDestroyPairs ch cnt + 1
    else if t = .jarray then jhDestroyElems ch cnt + 1
    else 0

def jhDestroyElems : List CNode → Nat → Nat
  | _, 0 => 0
  | [], _ + 1 => 0
  | c :: rest, k + 1 => jhDestroyElems rest k + jhDestroyNode c

def jhDestroyPairs : List CNode → Nat → Nat
  | _, 0 => 0
  | [], _ + 1 => 0
  | _ :: [], _ + 1 => 0
  | _ :: vl :: rest, k + 1 => jhDestroyPairs rest k + 1 + jhDestroyNode vl

end

def json_h_destroy : Option CNode → Nat
  | none => 0
  | some v => jhDestroyNode v

/- json_h_free: destroy and then release the node block itself. -/
def json_h_free (v : Option CNode) : Nat :=
  json_h_destroy v + 1

/- ctype helpers for the C locale. -/
def json_h_isspace (c : Nat) : Bool :=
  if c = 32 ∨ (9 ≤ c ∧ c ≤ 13) then true else false

def json_h_isxdigit (c : Nat) : Bool :=
  if (48 ≤ c ∧ c ≤ 57) ∨ (65 ≤ c ∧ c ≤ 70) ∨ (97 ≤ c ∧ c ≤ 102) then true else false

/- (c and 15) + (c greater than the digit nine ? 9 : 0) -/
def json_h_hexdigit (c : Nat) : Nat :=
  (c &&& 15) + (if 57 < c then 9 else 0)

/- Value read through the length pointer: offset 0 is the real cell,
any later offset reads unspecified memory, supplied by junk. -/
def readPtr (junk : Nat → Nat) (cell off : Nat) : Nat :=
  if off = 0 then cell else junk off

/- json_h_parse_string.  Arguments after junk: the esc flag, the
length cell value, the current pointer offset, the write log so far,
and the remaining input bytes starting just past the opening quote.
Returns the final write log, cell value and pointer offset on success,
none on the EINVAL paths (an exhausted input list models the C code
reading past the end of the source buffer). -/
def json_h_parse_string (junk : Nat → Nat) :
    Bool → Nat → Nat → List (Nat × Nat) → List Nat →
    Option (List (Nat × Nat) × Nat × Nat)
  | _, _, _, _, [] => none
  | esc, cell, off, log, c :: rest =>
    if esc then
      if c = 34 ∨ c = 92 ∨ c = 47 then
        json_h_parse_string junk false cell (off + 1)
          (log ++ [(readPtr junk cell off, c)]) rest
      else if c = 98 then
        json_h_parse_string junk false cell (off + 1)
          (log ++ [(readPtr junk cell off, 8)]) rest
      else if c = 102 then
        json_h_parse_string junk false cell (off + 1)
          (log ++ [(readPtr junk cell off, 12)]) rest
      else if c = 110 then
        json_h_parse_string junk false cell (off + 1)
          (log ++ [(readPtr junk cell off, 10)]) rest
      else if c = 114 then
        json_h_parse_string junk false cell (off + 1)
          (log ++ [(readPtr junk cell off, 13)]) rest
      else if c = 116 then
        json_h_parse_string junk false cell (off + 1)
          (log ++ [(readPtr junk cell off, 9)]) rest
      else if c = 117 then
        match rest with
        | h1 :: h2 :: h3 :: h4 :: rest2 =>
          if json_h_isxdigit h1 && json_h_isxdigit h2 &&
             json_h_isxdigit h3 && json_h_isxdigit h4 then
            -- cp is assembled with shifts 24, 16, 8, 0 as in the source
            let cp := (json_h_hexdigit h1 <<< 24) ||| (json_h_hexdigit h2 <<< 16) |||
                      (json_h_hexdigit h3 <<< 8) ||| (json_h_hexdigit h4 <<< 0)
            if cp ≤ 127 then
              json_h_parse_string junk false cell (off + 1)
                (log ++ [(readPtr junk cell off, cp % 256)]) rest2
            else if cp ≤ 2047 then
              json_h_parse_string junk false cell (off + 2)
                (log ++ [(readPtr junk cell off, ((cp >>> 6) ||| 192) % 256),
                         (readPtr junk cell (off + 1), ((cp >>> 0) &&& 63) % 256)]) rest2
            else
              json_h_parse_string junk false cell (off + 3)
                (log ++ [(readPtr junk cell off, ((cp >>> 12) ||| 224) % 256),
                         (readPtr junk cell (off + 1), ((cp >>> 6) &&& 63) % 256),
                         (readPtr junk cell (off + 2), ((cp >>> 0) &&& 63) % 256)]) rest2
          else none
        | _ => none
      else none
    else if c = 92 then
      json_h_parse_string junk true cell off log rest
    else if c = 34 then
      some (log ++ [(readPtr junk cell off, 0)], cell, off)
    else if c < 32 then
      none
    else
      json_h_parse_string junk false cell (off + 1)
        (log ++ [(readPtr junk cell off, c)]) rest

/- The scan loop of the string case of json_h_next: starting at index
r with byte count m, advance until an unescaped double quote or the
end of the buffer, returning the final r and m.  The fuel argument
dominates n - r, so the zero case is never taken by the wrapper. -/
def jhScan (buf : List Nat) (n : Nat) : Nat → Bool → Nat → Nat → Nat × Nat
  | 0, _, r, m => (r, m)
  | fuel + 1, esc, r, m =>
    if r < n then
      let c := buf.getD r 0
      if c = 92 then jhScan buf n fuel true (r + 1) (m + 1)
      else if esc then jhScan buf n fuel false (r + 1) (m + 1)
      else if c = 34 then (r, m)
      else jhScan buf n fuel esc (r + 1) (m + 1)
    else (r, m)

inductive NextRes where
  | tok : CNode → NextRes
  | clean : NextRes
  | err : NextRes
deriving Repr

/- The switch cases of json_h_next that produce a token or an error
without iterating the while loop, one definition per case of the C
switch, each taking the state as of entry to the loop body and the
context with the read cursor already advanced past the switch byte. -/

/- case open brace -/
def jhCaseObjOpen (st : St) (ctx1 : Ctx) : NextRes × St :=
  if ctx1.need_end ≠ 0 ∨ ctx1.object_state ≠ 2 then (.err, { st with ctx := ctx1 })
  else
    (.tok (.mk .jobjectStart 0 [] 0 [] 0),
      { st with buf := st.buf.set ctx1.s 123,
                ctx := { ctx1 with s := ctx1.s + 1, object_state := 0 } })

/- case close brace -/
def jhCaseObjClose (st : St) (ctx1 : Ctx) : NextRes × St :=
  if ctx1.object_state ≠ 0 then (.err, { st with ctx := ctx1 })
  else if ctx1.s = 0 then (.err, { st with ctx := ctx1 })
  else
    let ctx2 : Ctx := { ctx1 with s := ctx1.s - 1 }
    if st.buf.getD ctx2.s 0 ≠ 123 then (.err, { st with ctx := ctx2 })
    else (.tok (.mk .jobjectEnd 0 [] 0 [] 0), { st with ctx := { ctx2 with need_end := 1 } })

/- case open bracket -/
def jhCaseArrOpen (st : St) (ctx1 : Ctx) : NextRes × St :=
  if ctx1.need_end ≠ 0 ∨ ctx1.object_state ≠ 2 then (.err, { st with ctx := ctx1 })
  else
    (.tok (.mk .jarrayStart 0 [] 0 [] 0),
      { st with buf := st.buf.set ctx1.s 91,
                ctx := { ctx1 with s := ctx1.s + 1 } })

/- case close bracket -/
def jhCaseArrClose (st : St) (ctx1 : Ctx) : NextRes × St :=
  if ctx1.s = 0 then (.err, { st with ctx := ctx1 })
  else
    let ctx2 : Ctx := { ctx1 with s := ctx1.s - 1 }
    if st.buf.getD ctx2.s 0 ≠ 91 then (.err, { st with ctx := ctx2 })
    else (.tok (.mk .jarrayEnd 0 [] 0 [] 0), { st with ctx := { ctx2 with need_end := 1 } })

/- case double quote: scan for the closing quote, allocate, decode -/
def jhCaseString (junk : Nat → Nat) (st : St) (ctx1 : Ctx) : NextRes × St :=
  if ctx1.need_end ≠ 0 ∨ ctx1.object_state = 1 then (.err, { st with ctx := ctx1 })
  else
    match jhScan st.buf st.buf.length (st.buf.length - ctx1.r + 1) false ctx1.r 1 with
    | (r1, m) =>
      let ctx2 : Ctx := { ctx1 with r := r1 + 1 }
      if r1 = m then (.err, { st with ctx := ctx2 })
      else
        let st2 : St := { st with ctx := ctx2, allocs := st.allocs + 1 }
        match json_h_parse_string junk false 0 0 [] (st.buf.drop ctx1.r) with
        | none => (.err, { st2 with allocs := st2.allocs - 1 })
        | some (log, cell, _) =>
          let os2 := if ctx2.object_state = 0 then 1 else ctx2.object_state
          (.tok (.mk .jstring 0 log cell [] 0),
            { st2 with ctx := { ctx2 with need_end := 1, object_state := os2 } })

/- case letter n, expecting the null literal -/
def jhCaseNull (st : St) (ctx1 : Ctx) : NextRes × St :=
  if ctx1.need_end ≠ 0 ∨ ctx1.object_state ≠ 2 then (.err, { st with ctx := ctx1 })
  else if st.buf.length - ctx1.r < 3 then (.err, { st with ctx := ctx1 })
  else if st.buf.getD ctx1.r 0 = 117 ∧ st.buf.getD (ctx1.r + 1) 0 = 108 ∧
          st.buf.getD (ctx1.r + 2) 0 = 108 then
    (.tok (.mk .jnull 0 [] 0 [] 0),
      { st with ctx := { ctx1 with r := ctx1.r + 3, need_end := 1 } })
  else (.err, { st with ctx := ctx1 })

/- case letter t, expecting the true literal -/
def jhCaseTrue (st : St) (ctx1 : Ctx) : NextRes × St :=
  if ctx1.need_end ≠ 0 ∨ ctx1.object_state ≠ 2 then (.err, { st with ctx := ctx1 })
  else if st.buf.length - ctx1.r < 3 then (.err, { st with ctx := ctx1 })
  else if st.buf.getD ctx1.r 0 = 114 ∧ st.buf.getD (ctx1.r + 1) 0 = 117 ∧
          st.buf.getD (ctx1.r + 2) 0 = 101 then
    (.tok (.mk .jboolean 1 [] 0 [] 0),
      { st with ctx := { ctx1 with r := ctx1.r + 3, need_end := 1 } })
  else (.err, { st with ctx := ctx1 })

/- case letter f, expecting the false literal -/
def jhCaseFalse (st : St) (ctx1 : Ctx) : NextRes × St :=
  if ctx1.need_end ≠ 0 ∨ ctx1.object_state ≠ 2 then (.err, { st with ctx := ctx1 })
  else if st.buf.length - ctx1.r < 4 then (.err, { st with ctx := ctx1 })
  else if st.buf.getD ctx1.r 0 = 97 ∧ st.buf.getD (ctx1.r + 1) 0 = 108 ∧
          st.buf.getD (ctx1.r + 2) 0 = 115 ∧ st.buf.getD (ctx1.r + 3) 0 = 101 then
    (.tok (.mk .jboolean 0 [] 0 [] 0),
      { st with ctx := { ctx1 with r := ctx1.r + 4, need_end := 1 } })
  else (.err, { st with ctx := ctx1 })

/- The while loop of json_h_next: dispatch on the byte just consumed;
the comma, colon and whitespace cases iterate the loop, one recursive
call per consumed byte.  The fuel dominates n - r + 1, so the zero
case is unreachable from the wrapper. -/
def jhNextLoop (junk : Nat → Nat) : Nat → St → NextRes × St
  | 0, st => (.err, st)
  | fuel + 1, st =>
    if st.ctx.r < st.buf.length then
      let c := st.buf.getD st.ctx.r 0
      let ctx1 : Ctx := { st.ctx with r := st.ctx.r + 1 }
      if c = 123 then jhCaseObjOpen st ctx1
      else if c = 125 then jhCaseObjClose st ctx1
      else if c = 91 then jhCaseArrOpen st ctx1
      else if c = 93 then jhCaseArrClose st ctx1
      else if c = 34 then jhCaseString junk st ctx1
      else if c = 110 then jhCaseNull st ctx1
      else if c = 116 then jhCaseTrue st ctx1
      else if c = 102 then jhCaseFalse st ctx1
      else if c = 44 then
        -- case comma
        if ctx1.object_state ≠ 2 then (.err, { st with ctx := ctx1 })
        else
          let ctx2 : Ctx :=
            if ctx1.s ≠ 0 ∧ st.buf.getD (ctx1.s - 1) 0 = 123 then
              { ctx1 with object_state := 0 }
            else ctx1
          jhNextLoop junk fuel { st with ctx := { ctx2 with need_end := 0 } }
      else if c = 58 then
        -- case colon
        if ctx1.object_state ≠ 1 then (.err, { st with ctx := ctx1 })
        else jhNextLoop junk fuel { st with ctx := { ctx1 with object_state := 2, need_end := 0 } }
      else if json_h_isspace c then
        jhNextLoop junk fuel { st with ctx := ctx1 }
      else if ctx1.need_end ≠ 0 ∨ ctx1.object_state ≠ 2 then
        (.err, { st with ctx := ctx1 })
      else
        -- number literals are unimplemented: back up and fail
        (.err, { st with ctx := { ctx1 with r := ctx1.r - 1 } })
    else if st.ctx.s = 0 then (.clean, st)
    else (.err, st)

/- json_h_next: run the loop with enough fuel to reach the end of the
buffer. -/
def json_h_next (junk : Nat → Nat) (st : St) : NextRes × St :=
  jhNextLoop junk (st.buf.length - st.ctx.r + 1) st

/- json_h_parse_ and its container building loop.  The fuel only
bounds the recursion; json_h_parse supplies more than any input can
consume.  jhBuild carries the start token (whose tag is still the
marker kind until the container is closed), the collected child slots
and the slot count.  On a failed child build the source calls
json_h_destroy on the node under construction, whose tag is still the
start marker; the ledger subtracts exactly what that call frees.  The
realloc of the child buffer from NULL at slot 0 is one new block;
later growth reallocs do not change the block count. -/
mutual

def json_h_parse_ (junk : Nat → Nat) : Nat → St → Option CNode × St
  | 0, st => (none, st)
  | fuel + 1, st =>
    match json_h_next junk st with
    | (.err, st2) => (none, st2)
    | (.clean, st2) => (none, st2)
    | (.tok v, st2) =>
      if v.tag = .jobjectStart ∨ v.tag = .jarrayStart then
        jhBuild junk fuel v st2 [] 0
      else
        (some v, st2)

def jhBuild (junk : Nat → Nat) : Nat → CNode → St → List CNode → Nat → Option CNode × St
  | 0, _, st, _, _ => (none, st)
  | fuel + 1, start, st, children, k =>
    let st1 : St :=
      if k % 16 = 0 then
        if k = 0 then { st with allocs := st.allocs + 1 } else st
      else st
    match json_h_parse_ junk fuel st1 with
    | (none, st2) =>
      (none, { st2 with allocs := st2.allocs -
          json_h_destroy (some (.mk start.tag start.boolval start.strWrites start.strlen children k)) })
    | (some c, st2) =>
      if c.tag = .jobjectEnd then
        (some (.mk .jobject start.boolval start.strWrites start.strlen (children ++ [c]) (k / 2)), st2)
      else if c.tag = .jarrayEnd then
        (some (.mk .jarray start.boolval start.strWrites start.strlen (children ++ [c]) k), st2)
      else
        jhBuild junk fuel start st2 (children ++ [c]) (k + 1)

end

/- json_h_parse: allocate the root, build one value, then require one
clean end-of-input scanner call; the second component of the result is
the number of heap blocks still outstanding after the call (on success
these are exactly the blocks owned by the returned tree). -/
def json_h_parse (junk : Nat → Nat) (buf : List Nat) : Option CNode × Nat :=
  let st0 : St := ⟨buf, ctxInit, 1⟩
  match json_h_parse_ junk (2 * buf.length + 4) st0 with
  | (none, st1) => (none, st1.allocs - 1)
  | (some root, st1) =>
    match json_h_next junk st1 with
    | (.err, st2) => (none, st2.allocs - json_h_free (some root))
    | (.tok v, st2) => (none, st2.allocs - json_h_destroy (some v) - json_h_free (some root))
    | (.clean, st2) => (some root, st2.allocs)

/- A fixed instantiation of the unspecified reads for the concrete
evaluation theorems. -/
def junk0 : Nat → Nat := fun _ => 0

/- Marker-freeness of a finished tree: the tag of every node reachable
through the recorded counts is one of the six value kinds.  mfElems
checks the first cnt element slots of an array, mfPairs the first cnt
name and value pairs of an object. -/
def isMarker : JType → Bool
  | .jobjectStart => true
  | .jobjectEnd => true
  | .jarrayStart => true
  | .jarrayEnd => true
  | _ => false

mutual

def markerFree : CNode → Bool
  | .mk t _ _ _ ch cnt =>
    !(isMarker t) &&
    (if t = .jobject then mfPairs ch cnt
     else if t = .jarray then mfElems ch cnt
     else true)

def mfElems : List CNode → Nat → Bool
  | _, 0 => true
  | [], _ + 1 => true
  | c :: rest, k + 1 => markerFree c && mfElems rest k

def mfPairs : List CNode → Nat → Bool
  | _, 0 => true
  | [], _ + 1 => true
  | _ :: [], _ + 1 => true
  | nm :: vl :: rest, k + 1 => markerFree nm && markerFree vl && mfPairs rest k

end

set_option maxRecDepth 10000 in
/-- C1: the claim says parse fails on the object input with the bare
numeral value (true: the scanner has no number support) and succeeds on
the object input mapping key a to the string 1 with one member.  The
code rejects the second input as well: a closing brace is accepted only
in need-name-or-close state (object_state equal to zero), but after a
member value the state is need-value, so no non-empty object can ever
be closed; additionally the escape decoder increments its length
pointer instead of the counter, so every decoded string reports length
zero.  Both parses therefore fail. -/
theorem c1_nonempty_object_parse_fails :
    (json_h_parse junk0 [123, 34, 97, 34, 58, 49, 125]).1 = none ∧
    (json_h_parse junk0 [123, 34, 97, 34, 58, 34, 49, 34, 125]).1 = none := by
  constructor
  · simp [json_h_parse, json_h_parse_, jhBuild, json_h_next, jhNextLoop, jhScan,
          jhCaseObjOpen, jhCaseObjClose, jhCaseArrOpen, jhCaseArrClose,
          jhCaseString, jhCaseNull, jhCaseTrue, jhCaseFalse,
          json_h_parse_string, readPtr, json_h_isspace, json_h_isxdigit,
          json_h_hexdigit, ctxInit, junk0, json_h_destroy, jhDestroyNode,
          json_h_free, CNode.tag, CNode.boolval, CNode.strWrites, CNode.strlen]
  · simp [json_h_parse, json_h_parse_, jhBuild, json_h_next, jhNextLoop, jhScan,
          jhCaseObjOpen, jhCaseObjClose, jhCaseArrOpen, jhCaseArrClose,
          jhCaseString, jhCaseNull, jhCaseTrue, jhCaseFalse,
          json_h_parse_string, readPtr, json_h_isspace, json_h_isxdigit,
          json_h_hexdigit, ctxInit, junk0, json_h_destroy, jhDestroyNode,
          json_h_free, CNode.tag, CNode.boolval, CNode.strWrites, CNode.strlen]

/-- C2: the claim says a failed recursive build destroys every
collected child and the growable buffer before propagating.  On the
input consisting of an open bracket, the numeral one and a close
bracket, the child build fails, json_h_destroy is invoked on a node
whose tag is still the ArrayStart marker, which json_h_destroy
ignores, and the sixteen-slot child buffer allocated by realloc is
never freed: one heap block is still outstanding when json_h_parse
returns failure. -/
theorem c2_failed_build_leaks_buffer :
    json_h_parse junk0 [91, 49, 93] = (none, 1) :=
  rfl

/-- C3: the claim says the escape for the code point 0041 decodes to
the single byte 65 and the escape n decodes to one newline byte with
length one.  The code assembles the code point with shifts 24, 16, 8,
0 instead of 12, 8, 4, 0, producing 1025 instead of 65, emits the
two-byte form 208, 1 (also without the continuation high bit), and
because the length pointer rather than the counter is incremented the
length cell stays zero; the newline case likewise ends with length
cell zero. -/
theorem c3_unicode_escape_divergence :
    json_h_parse_string junk0 false 0 0 [] [92, 117, 48, 48, 52, 49, 34] =
      some ([(0, 208), (0, 1), (0, 0)], 0, 2) ∧
    json_h_parse_string junk0 false 0 0 [] [92, 110, 34] =
      some ([(0, 10), (0, 0)], 0, 1) :=
  ⟨rfl, rfl⟩

set_option maxRecDepth 10000 in
/-- C4: the claim asserts that the three-byte document quote x quote
is a complete valid document.  The code rejects it: the end-of-string
check in the scanner compares the advanced read cursor with the
scanned byte count m instead of the buffer length, which is an
equality exactly when the opening quote sits at buffer offset zero, so
this document fails, as does the longer document with trailing
content. -/
theorem c4_lone_string_document_rejected :
    (json_h_parse junk0 [34, 120, 34]).1 = none ∧
    (json_h_parse junk0 [34, 120, 34, 32, 34, 121, 34]).1 = none := by
  constructor
  · simp [json_h_parse, json_h_parse_, jhBuild, json_h_next, jhNextLoop, jhScan,
          jhCaseObjOpen, jhCaseObjClose, jhCaseArrOpen, jhCaseArrClose,
          jhCaseString, jhCaseNull, jhCaseTrue, jhCaseFalse,
          json_h_parse_string, readPtr, json_h_isspace, json_h_isxdigit,
          json_h_hexdigit, ctxInit, junk0, json_h_destroy, jhDestroyNode,
          json_h_free, CNode.tag, CNode.boolval, CNode.strWrites, CNode.strlen]
  · simp [json_h_parse, json_h_parse_, jhBuild, json_h_next, jhNextLoop, jhScan,
          jhCaseObjOpen, jhCaseObjClose, jhCaseArrOpen, jhCaseArrClose,
          jhCaseString, jhCaseNull, jhCaseTrue, jhCaseFalse,
          json_h_parse_string, readPtr, json_h_isspace, json_h_isxdigit,
          json_h_hexdigit, ctxInit, junk0, json_h_destroy, jhDestroyNode,
          json_h_free, CNode.tag, CNode.boolval, CNode.strWrites, CNode.strlen]

/-- C5: parse on the two-byte empty object input yields an Object node
with member count zero, and parse on the two-byte empty array input
yields an Array node with element count zero (the end marker token
occupies the slot past the count, exactly as in the C child buffer);
two heap blocks, the root and the child buffer, are owned by the
caller. -/
theorem c5_empty_object_and_array :
    json_h_parse junk0 [123, 125] =
      (some (.mk .jobject 0 [] 0 [.mk .jobjectEnd 0 [] 0 [] 0] 0), 2) ∧
    json_h_parse junk0 [91, 93] =
      (some (.mk .jarray 0 [] 0 [.mk .jarrayEnd 0 [] 0 [] 0] 0), 2) :=
  ⟨rfl, rfl⟩

/-- C6: the claim says a comma that does not immediately follow a
completed value or terminator is a syntax error.  The comma case of
the scanner checks only that object_state equals two and never
consults the need_end flag, so the document open bracket, comma, close
bracket is accepted and parses successfully as an empty array. -/
theorem c6_comma_after_bracket_accepted :
    json_h_parse junk0 [91, 44, 93] =
      (some (.mk .jarray 0 [] 0 [.mk .jarrayEnd 0 [] 0 [] 0] 0), 2) :=
  rfl

/-- C7: the claim says the scanner accepts the two-byte empty string
token wherever a string is allowed.  With the opening quote at buffer
offset zero the scanner returns a syntax error before the escape
decoder ever runs, because its end-of-string check compares the read
cursor with the scanned byte count; the same token one byte later is
accepted and produces a string of length zero. -/
theorem c7_empty_string_rejected_at_offset_zero :
    (json_h_next junk0 ⟨[34, 34], ctxInit, 0⟩).1 = NextRes.err ∧
    (json_h_next junk0 ⟨[32, 34, 34], ctxInit, 0⟩).1 =
      NextRes.tok (.mk .jstring 0 [(0, 0)] 0 [] 0) :=
  ⟨rfl, rfl⟩

/-- C9: json_h_destroy applied to a null pointer frees nothing: the
guard at the top of the function returns immediately. -/
theorem c9_destroy_null_noop : json_h_destroy none = 0 :=
  rfl

/- Setting one list cell leaves every other index unchanged. -/
theorem jh_getD_set_ne (a d : Nat) :
    ∀ (l : List Nat) (i j : Nat), i ≠ j → (l.set i a).getD j d = l.getD j d := by
  intro l
  induction l with
  | nil => intro i j _; rfl
  | cons x xs ih =>
    intro i j hij
    cases i with
    | zero =>
      cases j with
      | zero => exact absurd rfl hij
      | succ j2 => rfl
    | succ i2 =>
      cases j with
      | zero => rfl
      | succ j2 => exact ih i2 j2 (fun h => hij (by rw [h]))

/- The string scan never moves the cursor backwards. -/
theorem jhScan_le (buf : List Nat) (n : Nat) :
    ∀ fuel esc r m, r ≤ (jhScan buf n fuel esc r m).1 := by
  intro fuel
  induction fuel with
  | zero => intro esc r m; exact Nat.le_refl r
  | succ f ih =>
    intro esc r m
    simp only [jhScan]
    split
    · split
      · exact Nat.le_trans (Nat.le_succ r) (ih true (r + 1) (m + 1))
      · split
        · exact Nat.le_trans (Nat.le_succ r) (ih false (r + 1) (m + 1))
        · split
          · exact Nat.le_refl r
          · exact Nat.le_trans (Nat.le_succ r) (ih esc (r + 1) (m + 1))
    · exact Nat.le_refl r

/- Relation between the state before and after a scanner call: the
nesting cursor stays at or below the read cursor, the read cursor
never moves backwards, and every byte at or beyond the final read
cursor is untouched. -/
def jhCursorOk (a b : St) : Prop :=
  b.ctx.s ≤ b.ctx.r ∧ a.ctx.r ≤ b.ctx.r ∧
  ∀ i, b.ctx.r ≤ i → b.buf.getD i 0 = a.buf.getD i 0

theorem jhCursorOk_same_buf (a b : St) (hb : b.buf = a.buf)
    (h1 : b.ctx.s ≤ b.ctx.r) (h2 : a.ctx.r ≤ b.ctx.r) : jhCursorOk a b :=
  ⟨h1, h2, fun i _ => by rw [hb]⟩

theorem jhCursorOk_set_buf (a b : St) (idx w : Nat) (hb : b.buf = a.buf.set idx w)
    (h1 : b.ctx.s ≤ b.ctx.r) (h2 : a.ctx.r ≤ b.ctx.r) (h3 : idx < b.ctx.r) :
    jhCursorOk a b :=
  ⟨h1, h2, fun i hi => by rw [hb]; exact jh_getD_set_ne w 0 a.buf idx i (by omega)⟩

theorem jhCursorOk_chain (a b c : St) (h : jhCursorOk b c) (hb : b.buf = a.buf)
    (hr : a.ctx.r ≤ b.ctx.r) : jhCursorOk a c :=
  ⟨h.1, Nat.le_trans hr h.2.1, fun i hi => by rw [h.2.2 i hi, hb]⟩

/- Cursor invariant for each non-iterating scanner case. -/
theorem jhCaseObjOpen_cursor (st : St) (h : st.ctx.s ≤ st.ctx.r) :
    jhCursorOk st (jhCaseObjOpen st { st.ctx with r := st.ctx.r + 1 }).2 := by
  simp only [jhCaseObjOpen]
  split
  · exact jhCursorOk_same_buf _ _ rfl (by try dsimp only; omega) (by try dsimp only; omega)
  · exact jhCursorOk_set_buf _ _ st.ctx.s 123 rfl (by try dsimp only; omega)
      (by try dsimp only; omega) (by try dsimp only; omega)

theorem jhCaseObjClose_cursor (st : St) (h : st.ctx.s ≤ st.ctx.r) :
    jhCursorOk st (jhCaseObjClose st { st.ctx with r := st.ctx.r + 1 }).2 := by
  simp only [jhCaseObjClose]
  split
  · exact jhCursorOk_same_buf _ _ rfl (by try dsimp only; omega) (by try dsimp only; omega)
  · split
    · exact jhCursorOk_same_buf _ _ rfl (by try dsimp only; omega) (by try dsimp only; omega)
    · split
      · exact jhCursorOk_same_buf _ _ rfl (by try dsimp only; omega) (by try dsimp only; omega)
      · exact jhCursorOk_same_buf _ _ rfl (by try dsimp only; omega) (by try dsimp only; omega)

theorem jhCaseArrOpen_cursor (st : St) (h : st.ctx.s ≤ st.ctx.r) :
    jhCursorOk st (jhCaseArrOpen st { st.ctx with r := st.ctx.r + 1 }).2 := by
  simp only [jhCaseArrOpen]
  split
  · exact jhCursorOk_same_buf _ _ rfl (by try dsimp only; omega) (by try dsimp only; omega)
  · exact jhCursorOk_set_buf _ _ st.ctx.s 91 rfl (by try dsimp only; omega)
      (by try dsimp only; omega) (by try dsimp only; omega)

theorem jhCaseArrClose_cursor (st : St) (h : st.ctx.s ≤ st.ctx.r) :
    jhCursorOk st (jhCaseArrClose st { st.ctx with r := st.ctx.r + 1 }).2 := by
  simp only [jhCaseArrClose]
  split
  · exact jhCursorOk_same_buf _ _ rfl (by try dsimp only; omega) (by try dsimp only; omega)
  · split
    · exact jhCursorOk_same_buf _ _ rfl (by try dsimp only; omega) (by try dsimp only; omega)
    · exact jhCursorOk_same_buf _ _ rfl (by try dsimp only; omega) (by try dsimp only; omega)

theorem jhCaseString_cursor (junk : Nat → Nat) (st : St) (h : st.ctx.s ≤ st.ctx.r) :
    jhCursorOk st (jhCaseString junk st { st.ctx with r := st.ctx.r + 1 }).2 := by
  have hr1 := jhScan_le st.buf st.buf.length
    (st.buf.length - (st.ctx.r + 1) + 1) false (st.ctx.r + 1) 1
  simp only [jhCaseString]
  split
  · exact jhCursorOk_same_buf _ _ rfl (by try dsimp only; omega) (by try dsimp only; omega)
  · split
    · exact jhCursorOk_same_buf _ _ rfl (by try dsimp only; omega) (by try dsimp only; omega)
    · split
      · exact jhCursorOk_same_buf _ _ rfl (by try dsimp only; omega) (by try dsimp only; omega)
      · exact jhCursorOk_same_buf _ _ rfl (by try dsimp only; omega) (by try dsimp only; omega)

theorem jhCaseNull_cursor (st : St) (h : st.ctx.s ≤ st.ctx.r) :
    jhCursorOk st (jhCaseNull st { st.ctx with r := st.ctx.r + 1 }).2 := by
  simp only [jhCaseNull]
  split
  · exact jhCursorOk_same_buf _ _ rfl (by try dsimp only; omega) (by try dsimp only; omega)
  · split
    · exact jhCursorOk_same_buf _ _ rfl (by try dsimp only; omega) (by try dsimp only; omega)
    · split
      · exact jhCursorOk_same_buf _ _ rfl (by try dsimp only; omega) (by try dsimp only; omega)
      · exact jhCursorOk_same_buf _ _ rfl (by try dsimp only; omega) (by try dsimp only; omega)

theorem jhCaseTrue_cursor (st : St) (h : st.ctx.s ≤ st.ctx.r) :
    jhCursorOk st (jhCaseTrue st { st.ctx with r := st.ctx.r + 1 }).2 := by
  simp only [jhCaseTrue]
  split
  · exact jhCursorOk_same_buf _ _ rfl (by try dsimp only; omega) (by try dsimp only; omega)
  · split
    · exact jhCursorOk_same_buf _ _ rfl (by try dsimp only; omega) (by try dsimp only; omega)
    · split
      · exact jhCursorOk_same_buf _ _ rfl (by try dsimp only; omega) (by try dsimp only; omega)
      · exact jhCursorOk_same_buf _ _ rfl (by try dsimp only; omega) (by try dsimp only; omega)

theorem jhCaseFalse_cursor (st : St) (h : st.ctx.s ≤ st.ctx.r) :
    jhCursorOk st (jhCaseFalse st { st.ctx with r := st.ctx.r + 1 }).2 := by
  simp only [jhCaseFalse]
  split
  · exact jhCursorOk_same_buf _ _ rfl (by try dsimp only; omega) (by try dsimp only; omega)
  · split
    · exact jhCursorOk_same_buf _ _ rfl (by try dsimp only; omega) (by try dsimp only; omega)
    · split
      · exact jhCursorOk_same_buf _ _ rfl (by try dsimp only; omega) (by try dsimp only; omega)
      · exact jhCursorOk_same_buf _ _ rfl (by try dsimp only; omega) (by try dsimp only; omega)

/- Preservation of the cursor invariant by one scanner-loop call. -/
theorem jhNextLoop_cursor (junk : Nat → Nat) :
    ∀ fuel st, st.ctx.s ≤ st.ctx.r → jhCursorOk st (jhNextLoop junk fuel st).2 := by
  intro fuel
  induction fuel with
  | zero =>
    intro st h
    exact ⟨h, Nat.le_refl _, fun _ _ => rfl⟩
  | succ f ih =>
    intro st h
    by_cases h0 : st.ctx.r < st.buf.length
    case neg =>
      by_cases h1 : st.ctx.s = 0
      · simp only [jhNextLoop, if_neg h0, if_pos h1]
        exact ⟨h, Nat.le_refl _, fun _ _ => rfl⟩
      · simp only [jhNextLoop, if_neg h0, if_neg h1]
        exact ⟨h, Nat.le_refl _, fun _ _ => rfl⟩
    case pos =>
    by_cases hc1 : st.buf.getD st.ctx.r 0 = 123
    · simp only [jhNextLoop, if_pos h0, if_pos hc1]
      exact jhCaseObjOpen_cursor st h
    by_cases hc2 : st.buf.getD st.ctx.r 0 = 125
    · simp only [jhNextLoop, if_pos h0, if_neg hc1, if_pos hc2]
      exact jhCaseObjClose_cursor st h
    by_cases hc3 : st.buf.getD st.ctx.r 0 = 91
    · simp only [jhNextLoop, if_pos h0, if_neg hc1, if_neg hc2, if_pos hc3]
      exact jhCaseArrOpen_cursor st h
    by_cases hc4 : st.buf.getD st.ctx.r 0 = 93
    · simp only [jhNextLoop, if_pos h0, if_neg hc1, if_neg hc2, if_neg hc3, if_pos hc4]
      exact jhCaseArrClose_cursor st h
    by_cases hc5 : st.buf.getD st.ctx.r 0 = 34
    · simp only [jhNextLoop, if_pos h0, if_neg hc1, if_neg hc2, if_neg hc3, if_neg hc4,
        if_pos hc5]
      exact jhCaseString_cursor junk st h
    by_cases hc6 : st.buf.getD st.ctx.r 0 = 110
    · simp only [jhNextLoop, if_pos h0, if_neg hc1, if_neg hc2, if_neg hc3, if_neg hc4,
        if_neg hc5, if_pos hc6]
      exact jhCaseNull_cursor st h
    by_cases hc7 : st.buf.getD st.ctx.r 0 = 116
    · simp only [jhNextLoop, if_pos h0, if_neg hc1, if_neg hc2, if_neg hc3, if_neg hc4,
        if_neg hc5, if_neg hc6, if_pos hc7]
      exact jhCaseTrue_cursor st h
    by_cases hc8 : st.buf.getD st.ctx.r 0 = 102
    · simp only [jhNextLoop, if_pos h0, if_neg hc1, if_neg hc2, if_neg hc3, if_neg hc4,
        if_neg hc5, if_neg hc6, if_neg hc7, if_pos hc8]
      exact jhCaseFalse_cursor st h
    by_cases hc9 : st.buf.getD st.ctx.r 0 = 44
    · simp only [jhNextLoop, if_pos h0, if_neg hc1, if_neg hc2, if_neg hc3, if_neg hc4,
        if_neg hc5, if_neg hc6, if_neg hc7, if_neg hc8, if_pos hc9]
      by_cases ho : st.ctx.object_state ≠ 2
      · simp only [if_pos ho]
        exact jhCursorOk_same_buf _ _ rfl (by try dsimp only; omega) (by try dsimp only; omega)
      · simp only [if_neg ho]
        by_cases hin : st.ctx.s ≠ 0 ∧ st.buf.getD (st.ctx.s - 1) 0 = 123
        · simp only [if_pos hin]
          exact jhCursorOk_chain st _ _ (ih _ (by try dsimp only; omega)) rfl (by try dsimp only; omega)
        · simp only [if_neg hin]
          exact jhCursorOk_chain st _ _ (ih _ (by try dsimp only; omega)) rfl (by try dsimp only; omega)
    by_cases hc10 : st.buf.getD st.ctx.r 0 = 58
    · simp only [jhNextLoop, if_pos h0, if_neg hc1, if_neg hc2, if_neg hc3, if_neg hc4,
        if_neg hc5, if_neg hc6, if_neg hc7, if_neg hc8, if_neg hc9, if_pos hc10]
      by_cases ho : st.ctx.object_state ≠ 1
      · simp only [if_pos ho]
        exact jhCursorOk_same_buf _ _ rfl (by try dsimp only; omega) (by try dsimp only; omega)
      · simp only [if_neg ho]
        exact jhCursorOk_chain st _ _ (ih _ (by try dsimp only; omega)) rfl (by try dsimp only; omega)
    by_cases hsp : json_h_isspace (st.buf.getD st.ctx.r 0) = true
    · simp only [jhNextLoop, if_pos h0, if_neg hc1, if_neg hc2, if_neg hc3, if_neg hc4,
        if_neg hc5, if_neg hc6, if_neg hc7, if_neg hc8, if_neg hc9, if_neg hc10, if_pos hsp]
      exact jhCursorOk_chain st _ _ (ih _ (by try dsimp only; omega)) rfl (by try dsimp only; omega)
    simp only [jhNextLoop, if_pos h0, if_neg hc1, if_neg hc2, if_neg hc3, if_neg hc4,
      if_neg hc5, if_neg hc6, if_neg hc7, if_neg hc8, if_neg hc9, if_neg hc10, if_neg hsp]
    by_cases hne : st.ctx.need_end ≠ 0 ∨ st.ctx.object_state ≠ 2
    · simp only [if_pos hne]
      exact jhCursorOk_same_buf _ _ rfl (by try dsimp only; omega) (by try dsimp only; omega)
    · simp only [if_neg hne]
      exact jhCursorOk_same_buf _ _ rfl (by try dsimp only; omega) (by try dsimp only; omega)

/- Shape of the token produced by each scanner case. -/
theorem jhCaseObjOpen_tok (st : St) (ctx1 : Ctx) (v : CNode) (st2 : St)
    (h : jhCaseObjOpen st ctx1 = (.tok v, st2)) : v.tag = .jobjectStart := by
  unfold jhCaseObjOpen at h
  try dsimp only at h
  split at h
  · simp at h
  · rw [Prod.mk.injEq] at h
    injection h.1 with hv
    exact hv ▸ rfl

theorem jhCaseObjClose_tok (st : St) (ctx1 : Ctx) (v : CNode) (st2 : St)
    (h : jhCaseObjClose st ctx1 = (.tok v, st2)) :
    v.tag = .jobjectEnd ∧ ctx1.object_state = 0 := by
  unfold jhCaseObjClose at h
  try dsimp only at h
  split at h
  · simp at h
  · rename_i hos
    split at h
    · simp at h
    · split at h
      · simp at h
      · rw [Prod.mk.injEq] at h
        injection h.1 with hv
        exact ⟨hv ▸ rfl, by omega⟩

theorem jhCaseArrOpen_tok (st : St) (ctx1 : Ctx) (v : CNode) (st2 : St)
    (h : jhCaseArrOpen st ctx1 = (.tok v, st2)) : v.tag = .jarrayStart := by
  unfold jhCaseArrOpen at h
  try dsimp only at h
  split at h
  · simp at h
  · rw [Prod.mk.injEq] at h
    injection h.1 with hv
    exact hv ▸ rfl

theorem jhCaseArrClose_tok (st : St) (ctx1 : Ctx) (v : CNode) (st2 : St)
    (h : jhCaseArrClose st ctx1 = (.tok v, st2)) :
    v.tag = .jarrayEnd ∧ ctx1.s ≠ 0 := by
  unfold jhCaseArrClose at h
  try dsimp only at h
  split at h
  · simp at h
  · rename_i hs0
    split at h
    · simp at h
    · rw [Prod.mk.injEq] at h
      injection h.1 with hv
      exact ⟨hv ▸ rfl, hs0⟩

theorem jhCaseString_tok (junk : Nat → Nat) (st : St) (ctx1 : Ctx) (v : CNode) (st2 : St)
    (h : jhCaseString junk st ctx1 = (.tok v, st2)) :
    v.tag = .jstring ∧ markerFree v = true := by
  unfold jhCaseString at h
  try dsimp only at h
  split at h
  · simp at h
  · split at h
    · simp at h
    · split at h
      · simp at h
      · rw [Prod.mk.injEq] at h
        injection h.1 with hv
        subst hv
        exact ⟨rfl, by simp [markerFree, isMarker]⟩

theorem jhCaseNull_tok (st : St) (ctx1 : Ctx) (v : CNode) (st2 : St)
    (h : jhCaseNull st ctx1 = (.tok v, st2)) :
    v.tag = .jnull ∧ markerFree v = true := by
  unfold jhCaseNull at h
  try dsimp only at h
  split at h
  · simp at h
  · split at h
    · simp at h
    · split at h
      · rw [Prod.mk.injEq] at h
        injection h.1 with hv
        subst hv
        exact ⟨rfl, by simp [markerFree, isMarker]⟩
      · simp at h

theorem jhCaseTrue_tok (st : St) (ctx1 : Ctx) (v : CNode) (st2 : St)
    (h : jhCaseTrue st ctx1 = (.tok v, st2)) :
    v.tag = .jboolean ∧ markerFree v = true := by
  unfold jhCaseTrue at h
  try dsimp only at h
  split at h
  · simp at h
  · split at h
    · simp at h
    · split at h
      · rw [Prod.mk.injEq] at h
        injection h.1 with hv
        subst hv
        exact ⟨rfl, by simp [markerFree, isMarker]⟩
      · simp at h

theorem jhCaseFalse_tok (st : St) (ctx1 : Ctx) (v : CNode) (st2 : St)
    (h : jhCaseFalse st ctx1 = (.tok v, st2)) :
    v.tag = .jboolean ∧ markerFree v = true := by
  unfold jhCaseFalse at h
  try dsimp only at h
  split at h
  · simp at h
  · split at h
    · simp at h
    · split at h
      · rw [Prod.mk.injEq] at h
        injection h.1 with hv
        subst hv
        exact ⟨rfl, by simp [markerFree, isMarker]⟩
      · simp at h

/- Every token the scanner loop produces is either marker free (a
scalar with a value kind tag) or carries one of the four marker
tags. -/
theorem jhNextLoop_tok_prop (junk : Nat → Nat) :
    ∀ fuel st v st2, jhNextLoop junk fuel st = (.tok v, st2) →
      markerFree v = true ∨ v.tag = .jobjectStart ∨ v.tag = .jobjectEnd ∨
      v.tag = .jarrayStart ∨ v.tag = .jarrayEnd := by
  intro fuel
  induction fuel with
  | zero =>
    intro st v st2 h
    simp [jhNextLoop] at h
  | succ f ih =>
    intro st v st2 h
    by_cases h0 : st.ctx.r < st.buf.length
    case neg =>
      by_cases h1 : st.ctx.s = 0
      · simp only [jhNextLoop, if_neg h0, if_pos h1] at h
        simp at h
      · simp only [jhNextLoop, if_neg h0, if_neg h1] at h
        simp at h
    case pos =>
    by_cases hc1 : st.buf.getD st.ctx.r 0 = 123
    · simp only [jhNextLoop, if_pos h0, if_pos hc1] at h
      exact Or.inr (Or.inl (jhCaseObjOpen_tok _ _ _ _ h))
    by_cases hc2 : st.buf.getD st.ctx.r 0 = 125
    · simp only [jhNextLoop, if_pos h0, if_neg hc1, if_pos hc2] at h
      exact Or.inr (Or.inr (Or.inl (jhCaseObjClose_tok _ _ _ _ h).1))
    by_cases hc3 : st.buf.getD st.ctx.r 0 = 91
    · simp only [jhNextLoop, if_pos h0, if_neg hc1, if_neg hc2, if_pos hc3] at h
      exact Or.inr (Or.inr (Or.inr (Or.inl (jhCaseArrOpen_tok _ _ _ _ h))))
    by_cases hc4 : st.buf.getD st.ctx.r 0 = 93
    · simp only [jhNextLoop, if_pos h0, if_neg hc1, if_neg hc2, if_neg hc3, if_pos hc4] at h
      exact Or.inr (Or.inr (Or.inr (Or.inr (jhCaseArrClose_tok _ _ _ _ h).1)))
    by_cases hc5 : st.buf.getD st.ctx.r 0 = 34
    · simp only [jhNextLoop, if_pos h0, if_neg hc1, if_neg hc2, if_neg hc3, if_neg hc4,
        if_pos hc5] at h
      exact Or.inl (jhCaseString_tok _ _ _ _ _ h).2
    by_cases hc6 : st.buf.getD st.ctx.r 0 = 110
    · simp only [jhNextLoop, if_pos h0, if_neg hc1, if_neg hc2, if_neg hc3, if_neg hc4,
        if_neg hc5, if_pos hc6] at h
      exact Or.inl (jhCaseNull_tok _ _ _ _ h).2
    by_cases hc7 : st.buf.getD st.ctx.r 0 = 116
    · simp only [jhNextLoop, if_pos h0, if_neg hc1, if_neg hc2, if_neg hc3, if_neg hc4,
        if_neg hc5, if_neg hc6, if_pos hc7] at h
      exact Or.inl (jhCaseTrue_tok _ _ _ _ h).2
    by_cases hc8 : st.buf.getD st.ctx.r 0 = 102
    · simp only [jhNextLoop, if_pos h0, if_neg hc1, if_neg hc2, if_neg hc3, if_neg hc4,
        if_neg hc5, if_neg hc6, if_neg hc7, if_pos hc8] at h
      exact Or.inl (jhCaseFalse_tok _ _ _ _ h).2
    by_cases hc9 : st.buf.getD st.ctx.r 0 = 44
    · simp only [jhNextLoop, if_pos h0, if_neg hc1, if_neg hc2, if_neg hc3, if_neg hc4,
        if_neg hc5, if_neg hc6, if_neg hc7, if_neg hc8, if_pos hc9] at h
      by_cases ho : st.ctx.object_state ≠ 2
      · rw [if_pos ho] at h
        simp at h
      · rw [if_neg ho] at h
        by_cases hin : st.ctx.s ≠ 0 ∧ st.buf.getD (st.ctx.s - 1) 0 = 123
        · rw [if_pos hin] at h
          exact ih _ _ _ h
        · rw [if_neg hin] at h
          exact ih _ _ _ h
    by_cases hc10 : st.buf.getD st.ctx.r 0 = 58
    · simp only [jhNextLoop, if_pos h0, if_neg hc1, if_neg hc2, if_neg hc3, if_neg hc4,
        if_neg hc5, if_neg hc6, if_neg hc7, if_neg hc8, if_neg hc9, if_pos hc10] at h
      by_cases ho : st.ctx.object_state ≠ 1
      · rw [if_pos ho] at h
        simp at h
      · rw [if_neg ho] at h
        exact ih _ _ _ h
    by_cases hsp : json_h_isspace (st.buf.getD st.ctx.r 0) = true
    · simp only [jhNextLoop, if_pos h0, if_neg hc1, if_neg hc2, if_neg hc3, if_neg hc4,
        if_neg hc5, if_neg hc6, if_neg hc7, if_neg hc8, if_neg hc9, if_neg hc10,
        if_pos hsp] at h
      exact ih _ _ _ h
    simp only [jhNextLoop, if_pos h0, if_neg hc1, if_neg hc2, if_neg hc3, if_neg hc4,
      if_neg hc5, if_neg hc6, if_neg hc7, if_neg hc8, if_neg hc9, if_neg hc10,
      if_neg hsp] at h
    by_cases hne : st.ctx.need_end ≠ 0 ∨ st.ctx.object_state ≠ 2
    · rw [if_pos hne] at h
      simp at h
    · rw [if_neg hne] at h
      simp at h

/- From a state with an empty nesting cursor and the object state
expecting a value, the scanner loop never produces an end marker
token: the close brace case demands object state zero and the close
bracket case demands a non-empty nesting cursor, and the skipped
separator bytes preserve both facts. -/
theorem jhNextLoop_top_no_end (junk : Nat → Nat) :
    ∀ fuel st v st2, st.ctx.s = 0 → st.ctx.object_state = 2 →
      jhNextLoop junk fuel st = (.tok v, st2) →
      v.tag ≠ .jobjectEnd ∧ v.tag ≠ .jarrayEnd := by
  intro fuel
  induction fuel with
  | zero =>
    intro st v st2 _ _ h
    simp [jhNextLoop] at h
  | succ f ih =>
    intro st v st2 hs hos h
    by_cases h0 : st.ctx.r < st.buf.length
    case neg =>
      by_cases h1 : st.ctx.s = 0
      · simp only [jhNextLoop, if_neg h0, if_pos h1] at h
        simp at h
      · simp only [jhNextLoop, if_neg h0, if_neg h1] at h
        simp at h
    case pos =>
    by_cases hc1 : st.buf.getD st.ctx.r 0 = 123
    · simp only [jhNextLoop, if_pos h0, if_pos hc1] at h
      have ht := jhCaseObjOpen_tok _ _ _ _ h
      rw [ht]
      exact ⟨by decide, by decide⟩
    by_cases hc2 : st.buf.getD st.ctx.r 0 = 125
    · simp only [jhNextLoop, if_pos h0, if_neg hc1, if_pos hc2] at h
      have ht := (jhCaseObjClose_tok _ _ _ _ h).2
      dsimp only at ht
      omega
    by_cases hc3 : st.buf.getD st.ctx.r 0 = 91
    · simp only [jhNextLoop, if_pos h0, if_neg hc1, if_neg hc2, if_pos hc3] at h
      have ht := jhCaseArrOpen_tok _ _ _ _ h
      rw [ht]
      exact ⟨by decide, by decide⟩
    by_cases hc4 : st.buf.getD st.ctx.r 0 = 93
    · simp only [jhNextLoop, if_pos h0, if_neg hc1, if_neg hc2, if_neg hc3, if_pos hc4] at h
      have ht := (jhCaseArrClose_tok _ _ _ _ h).2
      dsimp only at ht
      omega
    by_cases hc5 : st.buf.getD st.ctx.r 0 = 34
    · simp only [jhNextLoop, if_pos h0, if_neg hc1, if_neg hc2, if_neg hc3, if_neg hc4,
        if_pos hc5] at h
      have ht := (jhCaseString_tok _ _ _ _ _ h).1
      rw [ht]
      exact ⟨by decide, by decide⟩
    by_cases hc6 : st.buf.getD st.ctx.r 0 = 110
    · simp only [jhNextLoop, if_pos h0, if_neg hc1, if_neg hc2, if_neg hc3, if_neg hc4,
        if_neg hc5, if_pos hc6] at h
      have ht := (jhCaseNull_tok _ _ _ _ h).1
      rw [ht]
      exact ⟨by decide, by decide⟩
    by_cases hc7 : st.buf.getD st.ctx.r 0 = 116
    · simp only [jhNextLoop, if_pos h0, if_neg hc1, if_neg hc2, if_neg hc3, if_neg hc4,
        if_neg hc5, if_neg hc6, if_pos hc7] at h
      have ht := (jhCaseTrue_tok _ _ _ _ h).1
      rw [ht]
      exact ⟨by decide, by decide⟩
    by_cases hc8 : st.buf.getD st.ctx.r 0 = 102
    · simp only [jhNextLoop, if_pos h0, if_neg hc1, if_neg hc2, if_neg hc3, if_neg hc4,
        if_neg hc5, if_neg hc6, if_neg hc7, if_pos hc8] at h
      have ht := (jhCaseFalse_tok _ _ _ _ h).1
      rw [ht]
      exact ⟨by decide, by decide⟩
    by_cases hc9 : st.buf.getD st.ctx.r 0 = 44
    · simp only [jhNextLoop, if_pos h0, if_neg hc1, if_neg hc2, if_neg hc3, if_neg hc4,
        if_neg hc5, if_neg hc6, if_neg hc7, if_neg hc8, if_pos hc9] at h
      by_cases ho : st.ctx.object_state ≠ 2
      · omega
      · rw [if_neg ho] at h
        by_cases hin : st.ctx.s ≠ 0 ∧ st.buf.getD (st.ctx.s - 1) 0 = 123
        · exact absurd hs hin.1
        · rw [if_neg hin] at h
          exact ih _ _ _ (by dsimp only; omega) (by dsimp only; omega) h
    by_cases hc10 : st.buf.getD st.ctx.r 0 = 58
    · simp only [jhNextLoop, if_pos h0, if_neg hc1, if_neg hc2, if_neg hc3, if_neg hc4,
        if_neg hc5, if_neg hc6, if_neg hc7, if_neg hc8, if_neg hc9, if_pos hc10] at h
      by_cases ho : st.ctx.object_state ≠ 1
      · rw [if_pos ho] at h
        simp at h
      · omega
    by_cases hsp : json_h_isspace (st.buf.getD st.ctx.r 0) = true
    · simp only [jhNextLoop, if_pos h0, if_neg hc1, if_neg hc2, if_neg hc3, if_neg hc4,
        if_neg hc5, if_neg hc6, if_neg hc7, if_neg hc8, if_neg hc9, if_neg hc10,
        if_pos hsp] at h
      exact ih _ _ _ (by dsimp only; omega) (by dsimp only; omega) h
    simp only [jhNextLoop, if_pos h0, if_neg hc1, if_neg hc2, if_neg hc3, if_neg hc4,
      if_neg hc5, if_neg hc6, if_neg hc7, if_neg hc8, if_neg hc9, if_neg hc10,
      if_neg hsp] at h
    by_cases hne : st.ctx.need_end ≠ 0 ∨ st.ctx.object_state ≠ 2
    · rw [if_pos hne] at h
      simp at h
    · rw [if_neg hne] at h
      simp at h

/- Marker freeness of element slots taken from a fully marker free
list, regardless of what sits past the count. -/
theorem mfElems_append (l2 : List CNode) :
    ∀ (l : List CNode) (k : Nat), k ≤ l.length →
      (∀ c ∈ l, markerFree c = true) → mfElems (l ++ l2) k = true := by
  intro l
  induction l with
  | nil =>
    intro k hk _
    cases k with
    | zero => simp [mfElems]
    | succ k2 => simp at hk
  | cons c rest ih =>
    intro k hk hall
    cases k with
    | zero => simp [mfElems]
    | succ k2 =>
      rw [List.cons_append]
      rw [show mfElems (c :: (rest ++ l2)) (k2 + 1) =
            (markerFree c && mfElems (rest ++ l2) k2) from rfl]
      rw [hall c (by simp), ih k2 (by simp at hk; omega)
        (fun x hx => hall x (by simp [hx]))]
      rfl

/- Marker freeness of member pairs taken from a fully marker free
list, regardless of what sits past the doubled count. -/
theorem mfPairs_append (l2 : List CNode) :
    ∀ (k : Nat) (l : List CNode), 2 * k ≤ l.length →
      (∀ c ∈ l, markerFree c = true) → mfPairs (l ++ l2) k = true := by
  intro k
  induction k with
  | zero =>
    intro l _ _
    cases l ++ l2 with
    | nil => simp [mfPairs]
    | cons a t => simp [mfPairs]
  | succ k2 ih =>
    intro l hl hall
    cases l with
    | nil => simp at hl
    | cons a l1 =>
      cases l1 with
      | nil => simp at hl; omega
      | cons b rest =>
        rw [List.cons_append, List.cons_append]
        rw [show mfPairs (a :: b :: (rest ++ l2)) (k2 + 1) =
              (markerFree a && markerFree b && mfPairs (rest ++ l2) k2) from rfl]
        rw [hall a (by simp), hall b (by simp), ih rest (by simp at hl; omega)
          (fun x hx => hall x (by simp [hx]))]
        rfl

/- The container builder only ever returns an object node or an array
node. -/
theorem jhBuild_tag (junk : Nat → Nat) :
    ∀ fuel start st children k v st2,
      jhBuild junk fuel start st children k = (some v, st2) →
      v.tag = .jobject ∨ v.tag = .jarray := by
  intro fuel
  induction fuel with
  | zero =>
    intro start st children k v st2 h
    simp [jhBuild] at h
  | succ f ih =>
    intro start st children k v st2 h
    rw [jhBuild] at h
    try dsimp only at h
    rcases hp : json_h_parse_ junk f
        (if k % 16 = 0 then (if k = 0 then { st with allocs := st.allocs + 1 } else st) else st)
      with ⟨oc, stc⟩
    rw [hp] at h
    cases oc with
    | none => simp at h
    | some c =>
      dsimp only at h
      by_cases he1 : c.tag = .jobjectEnd
      · rw [if_pos he1] at h
        rw [Prod.mk.injEq] at h
        injection h.1 with hv
        exact Or.inl (hv ▸ rfl)
      · rw [if_neg he1] at h
        by_cases he2 : c.tag = .jarrayEnd
        · rw [if_pos he2] at h
          rw [Prod.mk.injEq] at h
          injection h.1 with hv
          exact Or.inr (hv ▸ rfl)
        · rw [if_neg he2] at h
          exact ih _ _ _ _ _ _ h

/- Main marker freeness induction: a successful build of one value is
either an end marker leaf handed back to the enclosing container loop,
or a fully marker free tree; the container loop, fed only marker free
children, returns a marker free container. -/
theorem jhParse_markerFree (junk : Nat → Nat) :
    ∀ fuel,
      (∀ st v st2, json_h_parse_ junk fuel st = (some v, st2) →
        markerFree v = true ∨ v.tag = .jobjectEnd ∨ v.tag = .jarrayEnd) ∧
      (∀ start st children k v st2,
        (∀ c ∈ children, markerFree c = true) → children.length = k →
        jhBuild junk fuel start st children k = (some v, st2) → markerFree v = true) := by
  intro fuel
  induction fuel with
  | zero =>
    constructor
    · intro st v st2 h
      simp [json_h_parse_] at h
    · intro start st children k v st2 _ _ h
      simp [jhBuild] at h
  | succ f ih =>
    constructor
    · intro st v st2 h
      rw [json_h_parse_] at h
      rcases hnext : json_h_next junk st with ⟨res, stx⟩
      rw [hnext] at h
      cases res with
      | clean => simp at h
      | err => simp at h
      | tok v0 =>
        dsimp only at h
        by_cases hstart : v0.tag = .jobjectStart ∨ v0.tag = .jarrayStart
        · rw [if_pos hstart] at h
          exact Or.inl (ih.2 v0 stx [] 0 v st2 (by intro c hc; cases hc) rfl h)
        · rw [if_neg hstart] at h
          rw [Prod.mk.injEq] at h
          injection h.1 with hv
          subst hv
          rcases jhNextLoop_tok_prop junk _ st v0 stx hnext with hmf | ht | ht | ht | ht
          · exact Or.inl hmf
          · exact absurd (Or.inl ht) hstart
          · exact Or.inr (Or.inl ht)
          · exact absurd (Or.inr ht) hstart
          · exact Or.inr (Or.inr ht)
    · intro start st children k v st2 hch hlen h
      rw [jhBuild] at h
      try dsimp only at h
      rcases hp : json_h_parse_ junk f
          (if k % 16 = 0 then (if k = 0 then { st with allocs := st.allocs + 1 } else st) else st)
        with ⟨oc, stc⟩
      rw [hp] at h
      cases oc with
      | none => simp at h
      | some c =>
        dsimp only at h
        by_cases he1 : c.tag = .jobjectEnd
        · rw [if_pos he1] at h
          rw [Prod.mk.injEq] at h
          injection h.1 with hv
          subst hv
          rw [show markerFree (.mk .jobject start.boolval start.strWrites start.strlen
                (children ++ [c]) (k / 2)) =
              (!(isMarker .jobject) && mfPairs (children ++ [c]) (k / 2)) from rfl]
          rw [mfPairs_append [c] (k / 2) children (by omega) hch]
          rfl
        · rw [if_neg he1] at h
          by_cases he2 : c.tag = .jarrayEnd
          · rw [if_pos he2] at h
            rw [Prod.mk.injEq] at h
            injection h.1 with hv
            subst hv
            rw [show markerFree (.mk .jarray start.boolval start.strWrites start.strlen
                  (children ++ [c]) k) =
                (!(isMarker .jarray) && mfElems (children ++ [c]) k) from rfl]
            rw [mfElems_append [c] children k (by omega) hch]
            rfl
          · rw [if_neg he2] at h
            have hcm : markerFree c = true := by
              rcases ih.1 _ c stc hp with hmf | ht | ht
              · exact hmf
              · exact absurd ht he1
              · exact absurd ht he2
            refine ih.2 start stc (children ++ [c]) (k + 1) v st2 ?_ ?_ h
            · intro x hx
              rcases List.mem_append.mp hx with hx2 | hx2
              · exact hch x hx2
              · rw [List.mem_singleton.mp hx2]
                exact hcm
            · simp [hlen]

/- From the fresh top level context the value builder never hands back
an end marker: an end token demands a matching open delimiter on the
nesting cursor or object state zero, and a container build always
returns an object or array node. -/
theorem jhParse_top_no_end (junk : Nat → Nat) (fuel : Nat) :
    ∀ st v st2, st.ctx.s = 0 → st.ctx.object_state = 2 →
      json_h_parse_ junk fuel st = (some v, st2) →
      v.tag ≠ .jobjectEnd ∧ v.tag ≠ .jarrayEnd := by
  cases fuel with
  | zero =>
    intro st v st2 _ _ h
    simp [json_h_parse_] at h
  | succ f =>
    intro st v st2 hs hos h
    rw [json_h_parse_] at h
    rcases hnext : json_h_next junk st with ⟨res, stx⟩
    rw [hnext] at h
    cases res with
    | clean => simp at h
    | err => simp at h
    | tok v0 =>
      dsimp only at h
      by_cases hstart : v0.tag = .jobjectStart ∨ v0.tag = .jarrayStart
      · rw [if_pos hstart] at h
        rcases jhBuild_tag junk f v0 stx [] 0 v st2 h with ht | ht
        · rw [ht]
          exact ⟨by decide, by decide⟩
        · rw [ht]
          exact ⟨by decide, by decide⟩
      · rw [if_neg hstart] at h
        rw [Prod.mk.injEq] at h
        injection h.1 with hv
        subst hv
        exact jhNextLoop_top_no_end junk _ st v0 stx hs hos hnext

/-- C8: for every input and every choice of the unspecified reads, if
json_h_parse succeeds then no node reachable in the returned tree
through the recorded counts carries one of the four marker kinds: the
root, every array element below the element count, and every object
member name and value below the member count have a tag among Null,
Boolean, String, Number, Object, Array. -/
theorem c8_success_tree_marker_free (junk : Nat → Nat) (buf : List Nat) (v : CNode) (a : Nat)
    (h : json_h_parse junk buf = (some v, a)) : markerFree v = true := by
  rw [json_h_parse] at h
  try dsimp only at h
  rcases hp : json_h_parse_ junk (2 * buf.length + 4) ⟨buf, ctxInit, 1⟩ with ⟨ov, st1⟩
  rw [hp] at h
  cases ov with
  | none => simp at h
  | some root =>
    dsimp only at h
    rcases hn : json_h_next junk st1 with ⟨res, st2x⟩
    rw [hn] at h
    cases res with
    | err => simp at h
    | tok w => simp at h
    | clean =>
      dsimp only at h
      rw [Prod.mk.injEq] at h
      injection h.1 with hv
      subst hv
      rcases (jhParse_markerFree junk (2 * buf.length + 4)).1 _ root st1 hp with hmf | ht | ht
      · exact hmf
      · exact absurd ht ((jhParse_top_no_end junk _ _ root st1 rfl rfl hp).1)
      · exact absurd ht ((jhParse_top_no_end junk _ _ root st1 rfl rfl hp).2)

/-- Witness for C8 at the two-byte empty object input. -/
theorem c8_success_tree_marker_free_witness :
    markerFree (.mk .jobject 0 [] 0 [.mk .jobjectEnd 0 [] 0 [] 0] 0) = true :=
  c8_success_tree_marker_free junk0 [123, 125]
    (.mk .jobject 0 [] 0 [.mk .jobjectEnd 0 [] 0 [] 0] 0) 2 rfl

/-- C10: a json_h_next call made from a state whose nesting cursor s
does not exceed its read cursor r leaves the nesting cursor at or
below the read cursor, never moves the read cursor backwards, and
leaves every byte at or beyond the final read cursor unchanged, so the
in place delimiter stack only ever overwrites bytes the scanner has
already consumed, never unread input; since the initial context has
both cursors zero, the invariant holds across every sequence of
calls. -/
theorem c10_next_scratch_cursor_bound (junk : Nat → Nat) (st : St)
    (h : st.ctx.s ≤ st.ctx.r) :
    (json_h_next junk st).2.ctx.s ≤ (json_h_next junk st).2.ctx.r ∧
    st.ctx.r ≤ (json_h_next junk st).2.ctx.r ∧
    ∀ i, (json_h_next junk st).2.ctx.r ≤ i →
      (json_h_next junk st).2.buf.getD i 0 = st.buf.getD i 0 :=
  jhNextLoop_cursor junk (st.buf.length - st.ctx.r + 1) st h

/-- Witness for C10 at the two-byte empty array input with the fresh
context. -/
theorem c10_next_scratch_cursor_bound_witness :
    (json_h_next junk0 ⟨[91, 93], ctxInit, 0⟩).2.ctx.s ≤
      (json_h_next junk0 ⟨[91, 93], ctxInit, 0⟩).2.ctx.r ∧
    (⟨[91, 93], ctxInit, 0⟩ : St).ctx.r ≤ (json_h_next junk0 ⟨[91, 93], ctxInit, 0⟩).2.ctx.r ∧
    ∀ i, (json_h_next junk0 ⟨[91, 93], ctxInit, 0⟩).2.ctx.r ≤ i →
      (json_h_next junk0 ⟨[91, 93], ctxInit, 0⟩).2.buf.getD i 0 =
        (⟨[91, 93], ctxInit, 0⟩ : St).buf.getD i 0 :=
  c10_next_scratch_cursor_bound junk0 ⟨[91, 93], ctxInit, 0⟩ (Nat.le_refl 0)
